import Mathlib

set_option maxRecDepth 8192

/-!
Shallow embedding of datafusion-cli/src/print_format.rs: the print-format
dispatcher (PrintFormat.print_batches, PrintFormat.print_empty), the
bordered-table truncation logic (format_batches_with_maxrows,
keep_only_maxrows) and the streaming width-commitment state machine
(OutputStreamState with process_batch, compute_column_widths, print_header,
print_batch_with_widths, print_dotted_line).

Cell stringification is performed by the arrow formatters, which are outside
this module: a cell is modelled by the display string the formatter produces
(used by width measurement and by the pretty printer) together with a flag
telling whether ValueFormatter.try_to_string succeeds on it, and each column
carries a flag telling whether ArrayFormatter.try_new succeeds on it.

Output sinks are modelled as the list of lines written (each line implicitly
newline-terminated, as every write in the module goes through writeln).
Display strings are taken to be single-line and lengths are character counts
(the tests of the module only exercise ASCII, where byte and character counts
coincide).
-/

/-- A value as seen through the external arrow formatter: s is its Display
rendering (used for width measurement and table layout) and tryOk tells
whether ValueFormatter.try_to_string succeeds on it (pad_value falls back to
the empty string when it does not). -/
structure Cell where
  s : String
  tryOk : Bool
deriving DecidableEq, Repr

/-- A record batch in row-major form: each row holds one cell per column, and
colsOk records, per column, whether ArrayFormatter.try_new succeeds on that
column array. -/
structure RecordBatch where
  rows : List (List Cell)
  colsOk : List Bool
deriving DecidableEq, Repr

/-- batch.num_rows(). -/
def RecordBatch.numRows (b : RecordBatch) : Nat := b.rows.length

/-- batch.slice(offset, length): a new batch covering a row subrange. -/
def RecordBatch.slice (b : RecordBatch) (offset length : Nat) : RecordBatch :=
  { rows := (b.rows.drop offset).take length, colsOk := b.colsOk }

/-- Whether building an ArrayFormatter succeeds for every column of the
batch (the collect over ArrayFormatter.try_new in the source). -/
def batchFmtOk (b : RecordBatch) : Bool := b.colsOk.all (fun x => x)

/-- RecordBatch.new_empty(schema): zero rows, one (well-formed) column per
schema field. -/
def RecordBatch.newEmpty (schema : List String) : RecordBatch :=
  { rows := [], colsOk := schema.map fun _ => true }

/-- All data rows of a batch list, concatenated in arrival order. -/
def flatRows : List RecordBatch → List (List Cell)
  | [] => []
  | b :: bs => b.rows ++ flatRows bs

/-- Total number of data rows over a batch list. -/
def totalRows : List RecordBatch → Nat
  | [] => 0
  | b :: bs => b.numRows + totalRows bs

/-- Left-justified padding of a string to a width with spaces, as in the
format specifier used throughout the source (strings longer than the width
are kept whole). -/
def padCell (s : String) (w : Nat) : String :=
  s ++ String.mk (List.replicate (w - s.length) ' ')

/-- OutputStreamState::pad_value: try_to_string with unwrap_or_default, then
left-justified padding. -/
def pad_value (c : Cell) (w : Nat) : String :=
  padCell (if c.tryOk then c.s else "") w

/-- A horizontal border line: a plus, then per column width w two more than w
dashes followed by a plus (print_border / print_bottom_border in the source,
and the border rule of spec section 4.4). -/
def borderLine (ws : List Nat) : String :=
  "+" ++ String.join (ws.map fun w => String.mk (List.replicate (w + 2) '-') ++ "+")

/-- A table text line from already-padded cells: pipe, space, cells joined by
space-pipe-space, space, pipe. -/
def rowLineOf (cells : List String) : String :=
  "| " ++ String.intercalate " | " cells ++ " |"

/-- The header text line for a schema under committed widths. -/
def headerLine (schema : List String) (ws : List Nat) : String :=
  rowLineOf ((schema.zip ws).map fun p => padCell p.1 p.2)

/-- A data line of the pretty printer: Display strings padded to the
committed widths. -/
def dataLine (ws : List Nat) (r : List Cell) : String :=
  rowLineOf ((r.zip ws).map fun p => padCell p.1.s p.2)

/-- One row of width updates: widths[i] = max(widths[i], cell
display length), as in the inner loops of compute_column_widths. -/
def updWidths (ws : List Nat) (r : List Cell) : List Nat :=
  ws.zipWith (fun w c => max w c.s.length) r

/-- Column widths over a row list starting from the field-name lengths:
width of column i is the max of the length of the name of field i and every cell display
length in column i (spec section 4.4, and compute_column_widths). -/
def computeWidthsRows (schema : List String) (rows : List (List Cell)) : List Nat :=
  rows.foldl updWidths (schema.map String.length)

/-- Modelled from the spec: the arrow pretty_format_batches_with_options function is an
external collaborator of this module (it is not part of this repository);
spec section 4.4 fixes its layout exactly: border, header line, border, all
data rows in batch order with no re-bordering between batches, final border,
with widths from the field names and every measured cell.  Formatter
construction failures surface as the ArrowError the source propagates. -/
def pretty_format (schema : List String) (batches : List RecordBatch) :
    Except Unit (List String) :=
  if batches.all batchFmtOk then
    let ws := computeWidthsRows schema (flatRows batches)
    Except.ok (borderLine ws :: headerLine schema ws :: borderLine ws ::
      ((flatRows batches).map (dataLine ws) ++ [borderLine ws]))
  else Except.error ()

/-- keep_only_maxrows from the source, on the line list of the rendered table
(the source joins and re-splits the same single-line strings).  none models
the failure of the internal assertion that the table has at least
maxrows + 4 lines; otherwise the top border, header block and first maxrows
data lines are kept, three dotted lines are appended, and the original
bottom border is restored.  The dotted line is built from the length of the bottom border: a pipe, a space, a dot, then length minus four spaces, then a pipe. -/
def keep_only_maxrows (lines : List String) (maxrows : Nat) : Option (List String) :=
  if maxrows + 4 ≤ lines.length then
    let last_line := lines.getLastD ""
    let spaces := last_line.length - 4
    let dotted_line := "| ." ++ padCell "" spaces ++ "|"
    some (lines.take (maxrows + 3) ++ (List.replicate 3 dotted_line ++ [last_line]))
  else
    none

/-- The MaxRows type from print_options: either a finite row budget or
unlimited. -/
inductive MaxRows where
  | Limited (n : Nat)
  | Unlimited
deriving DecidableEq, Repr

/-- The batch-walking loop of format_batches_with_maxrows: take whole batches
while the running count plus the rows of the batch does not exceed maxrows; slice
the first batch that would exceed it to maxrows minus the running count rows
and stop, reporting over_limit = true. -/
def sliceLoop (maxrows row_count : Nat) : List RecordBatch → List RecordBatch × Bool
  | [] => ([], false)
  | b :: rest =>
    if maxrows < row_count + b.numRows then
      ([b.slice 0 (maxrows - row_count)], true)
    else
      let p := sliceLoop maxrows (row_count + b.numRows) rest
      (b :: p.1, p.2)

/-- The outcome of one render call: the lines written on success, a
propagated formatting error, or an assertion failure. -/
inductive RenderResult where
  | ok (lines : List String)
  | fmtError
  | panicked
deriving DecidableEq, Repr

/-- format_batches_with_maxrows from the source: for a finite budget, slice
the batches, pretty-print, and post-process with keep_only_maxrows when the
budget was exceeded; for the unlimited budget, pretty-print everything. -/
def format_batches_with_maxrows (schema : List String) (batches : List RecordBatch)
    (maxrows : MaxRows) : RenderResult :=
  match maxrows with
  | MaxRows.Limited m =>
    let p := sliceLoop m 0 batches
    match pretty_format schema p.1 with
    | Except.error _ => RenderResult.fmtError
    | Except.ok lines =>
      if p.2 then
        match keep_only_maxrows lines m with
        | none => RenderResult.panicked
        | some ls => RenderResult.ok ls
      else RenderResult.ok lines
  | MaxRows.Unlimited =>
    match pretty_format schema batches with
    | Except.error _ => RenderResult.fmtError
    | Except.ok lines => RenderResult.ok lines

/-- Modelled from the spec: print_batches_with_sep builds an arrow CSV writer,
which is outside this repository; per spec sections 4.2 and 6 it writes a
header line (the schema field names joined by the delimiter) iff
with_header is set, then one line per row with cells joined by the delimiter;
quoting and escaping are delegated to that external collaborator and not
modelled. -/
def print_batches_with_sep (schema : List String) (batches : List RecordBatch)
    (delimiter : String) (with_header : Bool) : List String :=
  (if with_header then [String.intercalate delimiter schema] else []) ++
    (flatRows batches).map fun r => String.intercalate delimiter (r.map Cell.s)

/-- Modelled from the spec: one JSON object per row, keys in schema field
order (spec section 4.3); the arrow JSON writers are outside this
repository. -/
def jsonObject (schema : List String) (r : List Cell) : String :=
  "\x7b" ++ String.intercalate ","
    ((schema.zip r).map fun p => "\"" ++ p.1 ++ "\":" ++ p.2.s) ++ "\x7d"

/-- Modelled from the spec: array-mode JSON output is one line holding one
array of row objects, and json_finish in the source adds the final newline;
nothing at all is written when the batch list is empty (spec section 4.3). -/
def jsonArrayRender (schema : List String) (batches : List RecordBatch) : List String :=
  if batches.isEmpty then []
  else ["[" ++ String.intercalate "," ((flatRows batches).map (jsonObject schema)) ++ "]"]

/-- Modelled from the spec: line-mode JSON output is one object per row, one
line per row, no enclosing array; nothing at all is written when the batch
list is empty (spec section 4.3). -/
def jsonLinesRender (schema : List String) (batches : List RecordBatch) : List String :=
  if batches.isEmpty then []
  else (flatRows batches).map (jsonObject schema)

/-- The output format selector of the source. -/
inductive PrintFormat where
  | Csv
  | Tsv
  | Table
  | Json
  | NdJson
  | Automatic
deriving DecidableEq, Repr

/-- PrintFormat::print_empty: for Table with a non-empty schema,
pretty-print a single empty batch derived from the schema; otherwise write
nothing. -/
def PrintFormat.print_empty (fmt : PrintFormat) (schema : List String) : RenderResult :=
  match fmt with
  | PrintFormat.Table =>
    if schema.isEmpty then RenderResult.ok []
    else
      match pretty_format schema [RecordBatch.newEmpty schema] with
      | Except.error _ => RenderResult.fmtError
      | Except.ok lines => RenderResult.ok lines
  | _ => RenderResult.ok []

/-- PrintFormat::print_batches: filter out zero-row batches; dispatch to
print_empty when nothing remains; otherwise route by format, with the
Limited-zero short-circuit for Table. -/
def PrintFormat.print_batches (fmt : PrintFormat) (schema : List String)
    (batches : List RecordBatch) (maxrows : MaxRows) (with_header : Bool) :
    RenderResult :=
  let bs := batches.filter fun b => 0 < b.numRows
  if bs.isEmpty then fmt.print_empty schema
  else
    match fmt with
    | PrintFormat.Csv => RenderResult.ok (print_batches_with_sep schema bs "," with_header)
    | PrintFormat.Automatic => RenderResult.ok (print_batches_with_sep schema bs "," with_header)
    | PrintFormat.Tsv => RenderResult.ok (print_batches_with_sep schema bs "\t" with_header)
    | PrintFormat.Table =>
      if maxrows = MaxRows.Limited 0 then RenderResult.ok []
      else format_batches_with_maxrows schema bs maxrows
    | PrintFormat.Json => RenderResult.ok (jsonArrayRender schema bs)
    | PrintFormat.NdJson => RenderResult.ok (jsonLinesRender schema bs)

/-- The loop body of OutputStreamState::compute_column_widths: per batch,
formatter construction may fail (propagated), else every row updates the
running widths. -/
def compute_column_widths_go (ws : List Nat) : List RecordBatch → Except Unit (List Nat)
  | [] => Except.ok ws
  | b :: rest =>
    if batchFmtOk b then compute_column_widths_go (b.rows.foldl updWidths ws) rest
    else Except.error ()

/-- OutputStreamState::compute_column_widths: start from the field-name
lengths and fold the rows of every buffered batch through the width updates. -/
def compute_column_widths (schema : List String) (batches : List RecordBatch) :
    Except Unit (List Nat) :=
  compute_column_widths_go (schema.map String.length) batches

/-- OutputStreamState::print_header: border, padded field names, border. -/
def print_header (schema : List String) (ws : List Nat) : List String :=
  [borderLine ws, headerLine schema ws, borderLine ws]

/-- OutputStreamState::print_batch_with_widths: formatter construction may
fail (propagated); otherwise one line per row of pad_value cells. -/
def print_batch_with_widths (b : RecordBatch) (ws : List Nat) :
    Except Unit (List String) :=
  if batchFmtOk b then
    Except.ok (b.rows.map fun r => rowLineOf ((r.zip ws).map fun p => pad_value p.1 p.2))
  else Except.error ()

/-- OutputStreamState::print_dotted_line: per column a space, a padded dot
and a space, the cells joined and enclosed by pipes. -/
def print_dotted_line (ws : List Nat) : List String :=
  ["|" ++ String.intercalate "|" (ws.map fun w => " " ++ padCell "." w ++ " ") ++ "|"]

/-- The lines print_batch_with_widths would emit for a batch list under fixed
widths (used to state what a committed stream writes). -/
def renderedRows (bs : List RecordBatch) (ws : List Nat) : List String :=
  (flatRows bs).map fun r => rowLineOf ((r.zip ws).map fun p => pad_value p.1 p.2)

/-- The ellipsis line keep_only_maxrows actually builds for committed widths
ws: a pipe, a space and a dot, then bottom-border-length minus four spaces,
then a pipe. -/
def ellipsisLine (ws : List Nat) : String :=
  "| ." ++ padCell "" ((borderLine ws).length - 4) ++ "|"

/-- The streaming display state of the source, with the writer replaced by
the list of lines written so far. -/
structure OutputStreamState where
  preview_batches : List RecordBatch
  preview_row_count : Nat
  preview_limit : Nat
  precomputed_widths : Option (List Nat)
  header_printed : Bool
  output : List String
deriving DecidableEq, Repr

/-- OutputStreamState::new. -/
def OutputStreamState.new (preview_limit : Nat) : OutputStreamState :=
  { preview_batches := []
    preview_row_count := 0
    preview_limit := preview_limit
    precomputed_widths := none
    header_printed := false
    output := [] }

/-- The flush loop at commitment: print every drained preview batch with the
committed widths, stopping at the first propagated failure (earlier lines
stay written). -/
def flushLoop (ws : List Nat) : OutputStreamState → List RecordBatch →
    OutputStreamState × Except Unit Unit
  | st, [] => (st, Except.ok ())
  | st, b :: rest =>
    match print_batch_with_widths b ws with
    | Except.error e => (st, Except.error e)
    | Except.ok lines => flushLoop ws { st with output := st.output ++ lines } rest

/-- OutputStreamState::process_batch: while uncommitted, buffer the batch and
count its rows, committing (compute widths, print header, flush the buffer)
once the running count reaches the preview limit; once committed, print the
batch immediately with the committed widths, emitting the header first if it
was never emitted.  The returned state reflects all mutations made before a
propagated failure. -/
def OutputStreamState.process_batch (st : OutputStreamState) (b : RecordBatch)
    (schema : List String) : OutputStreamState × Except Unit Unit :=
  match st.precomputed_widths with
  | none =>
    let st1 := { st with preview_batches := st.preview_batches ++ [b]
                         preview_row_count := st.preview_row_count + b.numRows }
    if st1.preview_limit ≤ st1.preview_row_count then
      match compute_column_widths schema st1.preview_batches with
      | Except.error e => (st1, Except.error e)
      | Except.ok ws =>
        let st2 := { st1 with precomputed_widths := some ws
                              output := st1.output ++ print_header schema ws
                              header_printed := true
                              preview_batches := [] }
        flushLoop ws st2 st1.preview_batches
    else (st1, Except.ok ())
  | some ws =>
    let st1 :=
      if st.header_printed then st
      else { st with output := st.output ++ print_header schema ws
                     header_printed := true }
    match print_batch_with_widths b ws with
    | Except.error e => (st1, Except.error e)
    | Except.ok lines => ({ st1 with output := st1.output ++ lines }, Except.ok ())

/-- A whole streaming session: process_batch on each batch in order, stopping
at the first propagated failure. -/
def processAll (schema : List String) : OutputStreamState → List RecordBatch →
    OutputStreamState × Except Unit Unit
  | st, [] => (st, Except.ok ())
  | st, b :: rest =>
    match st.process_batch b schema with
    | (st1, Except.ok _) => processAll schema st1 rest
    | (st1, Except.error e) => (st1, Except.error e)

/-! Basic facts about batch lists. -/

lemma totalRows_cons (b : RecordBatch) (bs : List RecordBatch) :
    totalRows (b :: bs) = b.numRows + totalRows bs := rfl

lemma flatRows_append (xs ys : List RecordBatch) :
    flatRows (xs ++ ys) = flatRows xs ++ flatRows ys := by
  induction xs with
  | nil => rfl
  | cons b xs ih => simp [flatRows, ih]

lemma totalRows_append (xs ys : List RecordBatch) :
    totalRows (xs ++ ys) = totalRows xs + totalRows ys := by
  induction xs with
  | nil => simp [totalRows]
  | cons b xs ih => simp [totalRows, ih]; omega

lemma flatRows_length (bs : List RecordBatch) :
    (flatRows bs).length = totalRows bs := by
  induction bs with
  | nil => rfl
  | cons b bs ih => simp [flatRows, totalRows, ih, RecordBatch.numRows]

lemma totalRows_pos_ne_nil {bs : List RecordBatch} (h : 0 < totalRows bs) : bs ≠ [] := by
  rintro rfl
  simp [totalRows] at h

lemma totalRows_filter (bs : List RecordBatch) :
    totalRows (bs.filter fun b => 0 < b.numRows) = totalRows bs := by
  induction bs with
  | nil => rfl
  | cons b bs ih =>
    by_cases hb : 0 < b.numRows
    · simp [List.filter_cons, hb, totalRows, ih]
    · have hz : b.numRows = 0 := by omega
      simp [List.filter_cons, hb, totalRows, ih, hz]

lemma flatRows_filter (bs : List RecordBatch) :
    flatRows (bs.filter fun b => 0 < b.numRows) = flatRows bs := by
  induction bs with
  | nil => rfl
  | cons b bs ih =>
    by_cases hb : 0 < b.numRows
    · simp [List.filter_cons, hb, flatRows, ih]
    · have hz : b.rows = [] := by
        have : b.rows.length = 0 := by
          simpa [RecordBatch.numRows] using Nat.le_zero.mp (Nat.not_lt.mp hb)
        exact List.length_eq_zero.mp this
      simp [List.filter_cons, hb, flatRows, ih, hz]

lemma filter_idem_bool {α : Type} (p : α → Bool) (l : List α) :
    (l.filter p).filter p = l.filter p := by
  induction l with
  | nil => rfl
  | cons a l ih =>
    by_cases h : p a <;> simp [List.filter_cons, h, ih]

lemma all_fmtOk_filter {bs : List RecordBatch} (h : bs.all batchFmtOk = true) :
    ((bs.filter fun b => 0 < b.numRows).all batchFmtOk) = true := by
  induction bs with
  | nil => rfl
  | cons b bs ih =>
    simp only [List.all_cons, Bool.and_eq_true] at h
    by_cases hb : 0 < b.numRows
    · simp [List.filter_cons, hb, List.all_cons, h.1, ih h.2]
    · simp [List.filter_cons, hb, ih h.2]

/-! Facts about the truncation slicing loop. -/

lemma sliceLoop_under (m : Nat) :
    ∀ (c : Nat) (bs : List RecordBatch), c + totalRows bs ≤ m →
      sliceLoop m c bs = (bs, false) := by
  intro c bs
  induction bs generalizing c with
  | nil => intro _; rfl
  | cons b rest ih =>
    intro h
    have h1 : totalRows (b :: rest) = b.numRows + totalRows rest := rfl
    have hle : ¬ m < c + b.numRows := by omega
    simp only [sliceLoop, if_neg hle]
    rw [ih (c + b.numRows) (by omega)]

lemma sliceLoop_over (m : Nat) :
    ∀ (c : Nat) (bs : List RecordBatch), c ≤ m → m < c + totalRows bs →
      (sliceLoop m c bs).2 = true ∧
      totalRows (sliceLoop m c bs).1 = m - c ∧
      flatRows (sliceLoop m c bs).1 = (flatRows bs).take (m - c) := by
  intro c bs
  induction bs generalizing c with
  | nil =>
    intro hc hover
    simp [totalRows] at hover
    omega
  | cons b rest ih =>
    intro hc hover
    have h1 : totalRows (b :: rest) = b.numRows + totalRows rest := rfl
    by_cases hb : m < c + b.numRows
    · simp only [sliceLoop, if_pos hb]
      refine ⟨trivial, ?_, ?_⟩
      · simp only [totalRows, RecordBatch.numRows, RecordBatch.slice, List.drop_zero]
        rw [List.length_take]
        have : b.numRows = b.rows.length := rfl
        omega
      · simp only [flatRows, RecordBatch.slice, List.drop_zero, List.append_nil]
        rw [List.take_append_eq_append_take]
        have hmc : m - c ≤ b.rows.length := by
          have : b.numRows = b.rows.length := rfl
          omega
        have : m - c - b.rows.length = 0 := by omega
        rw [this, List.take_zero, List.append_nil]
    · have hrec := ih (c + b.numRows) (by omega) (by omega)
      simp only [sliceLoop, if_neg hb]
      refine ⟨hrec.1, ?_, ?_⟩
      · simp only [totalRows]
        rw [hrec.2.1]
        omega
      · simp only [flatRows]
        rw [hrec.2.2, List.take_append_eq_append_take]
        have hlen : b.rows.length ≤ m - c := by
          have : b.numRows = b.rows.length := rfl
          omega
        rw [List.take_of_length_le hlen]
        congr 1
        congr 1
        have : b.numRows = b.rows.length := rfl
        omega

lemma sliceLoop_fmtOk (m : Nat) :
    ∀ (c : Nat) (bs : List RecordBatch), bs.all batchFmtOk = true →
      ((sliceLoop m c bs).1.all batchFmtOk) = true := by
  intro c bs
  induction bs generalizing c with
  | nil => intro _; rfl
  | cons b rest ih =>
    intro h
    simp only [List.all_cons, Bool.and_eq_true] at h
    by_cases hb : m < c + b.numRows
    · simp only [sliceLoop, if_pos hb]
      simp [List.all_cons, batchFmtOk, RecordBatch.slice]
      simpa [batchFmtOk] using h.1
    · simp only [sliceLoop, if_neg hb]
      simp [List.all_cons, h.1, ih (c + b.numRows) h.2]

lemma isEmpty_eq_false_of_ne_nil {α : Type} {l : List α} (h : l ≠ []) :
    l.isEmpty = false := by
  cases l with
  | nil => exact absurd rfl h
  | cons a l => rfl

lemma print_batches_table_nonempty (schema : List String) (bs : List RecordBatch)
    (maxrows : MaxRows) (hdr : Bool)
    (h : (bs.filter fun b => 0 < b.numRows) ≠ []) (hm : maxrows ≠ MaxRows.Limited 0) :
    PrintFormat.print_batches PrintFormat.Table schema bs maxrows hdr =
      format_batches_with_maxrows schema (bs.filter fun b => 0 < b.numRows) maxrows := by
  simp only [PrintFormat.print_batches, isEmpty_eq_false_of_ne_nil h]
  simp [hm]

lemma format_table_truncated (schema : List String) (bs : List RecordBatch) (L : Nat)
    (hover : L < totalRows bs) (hfmt : bs.all batchFmtOk = true) :
    format_batches_with_maxrows schema bs (MaxRows.Limited L) =
      RenderResult.ok
        (borderLine (computeWidthsRows schema ((flatRows bs).take L)) ::
         headerLine schema (computeWidthsRows schema ((flatRows bs).take L)) ::
         borderLine (computeWidthsRows schema ((flatRows bs).take L)) ::
         (((flatRows bs).take L).map
            (dataLine (computeWidthsRows schema ((flatRows bs).take L))) ++
          (List.replicate 3 (ellipsisLine (computeWidthsRows schema ((flatRows bs).take L))) ++
           [borderLine (computeWidthsRows schema ((flatRows bs).take L))]))) := by
  obtain ⟨hov, htot, hflat⟩ := sliceLoop_over L 0 bs (Nat.zero_le L) (by omega)
  rw [Nat.sub_zero] at htot hflat
  have hsl_fmt := sliceLoop_fmtOk L 0 bs hfmt
  set w := computeWidthsRows schema ((flatRows bs).take L) with hw
  set maps := ((flatRows bs).take L).map (dataLine w) with hmaps
  have hmapslen : maps.length = L := by
    rw [hmaps, List.length_map, List.length_take, flatRows_length]
    omega
  have hsplit : (borderLine w :: headerLine schema w :: borderLine w ::
      (maps ++ [borderLine w])) =
      ((borderLine w :: headerLine schema w :: borderLine w :: maps) ++ [borderLine w]) := by
    simp
  simp only [format_batches_with_maxrows, pretty_format, hsl_fmt, if_true, hflat, hov,
    ← hw, ← hmaps]
  have hlen : L + 4 ≤ (borderLine w :: headerLine schema w :: borderLine w ::
      (maps ++ [borderLine w])).length := by
    simp [hmapslen]
  have hlast : (borderLine w :: headerLine schema w :: borderLine w ::
      (maps ++ [borderLine w])).getLastD "" = borderLine w := by
    rw [hsplit]
    exact List.getLastD_concat _ _ _
  have htake : (borderLine w :: headerLine schema w :: borderLine w ::
      (maps ++ [borderLine w])).take (L + 3) =
      borderLine w :: headerLine schema w :: borderLine w :: maps := by
    rw [hsplit, List.take_append_eq_append_take]
    have hxlen : (borderLine w :: headerLine schema w :: borderLine w :: maps).length = L + 3 := by
      simp [hmapslen]
    rw [List.take_of_length_le (by omega), hxlen]
    simp
  simp only [keep_only_maxrows, if_pos hlen, hlast, htake]
  rw [show ("| ." ++ padCell "" ((borderLine w).length - 4) ++ "|") = ellipsisLine w from rfl]
  simp

lemma pretty_lines_length (schema : List String) (bs : List RecordBatch)
    (lines : List String) (h : pretty_format schema bs = Except.ok lines) :
    lines.length = 4 + totalRows bs := by
  cases hc : bs.all batchFmtOk with
  | false => simp [pretty_format, hc] at h
  | true =>
    simp only [pretty_format, hc, if_true] at h
    cases h
    simp [List.length_append, List.length_map, flatRows_length]
    omega

lemma format_table_no_panic (schema : List String) (bs : List RecordBatch) (L : Nat)
    (hover : L < totalRows bs) :
    format_batches_with_maxrows schema bs (MaxRows.Limited L) ≠ RenderResult.panicked := by
  obtain ⟨hov, htot, hflat⟩ := sliceLoop_over L 0 bs (Nat.zero_le L) (by omega)
  rw [Nat.sub_zero] at htot
  simp only [format_batches_with_maxrows]
  cases hp : pretty_format schema (sliceLoop L 0 bs).1 with
  | error e => simp
  | ok lines =>
    have hlen := pretty_lines_length _ _ _ hp
    rw [htot] at hlen
    simp only [hov, if_true, keep_only_maxrows, if_pos (by omega : L + 4 ≤ lines.length)]
    simp

/-- C2 (amended): a bordered-table render with finite budget L at least one,
over more than L total input rows, outputs exactly the first L data rows of
the concatenated batches in arrival order (whole batches while the running
count plus their rows stays within L, the first batch that would exceed L
sliced to L minus the running count rows), then exactly three ellipsis rows,
then the bottom border; the top and bottom border lines are those of the
table rendered from the sliced batches, left unchanged by the ellipsis
substitution (they may be narrower than the borders of the untruncated table). -/
theorem c2_truncation_structure (schema : List String) (bs : List RecordBatch) (L : Nat)
    (hdr : Bool) (hL : 1 ≤ L) (hover : L < totalRows bs)
    (hfmt : bs.all batchFmtOk = true) :
    PrintFormat.print_batches PrintFormat.Table schema bs (MaxRows.Limited L) hdr =
      RenderResult.ok
        (borderLine (computeWidthsRows schema ((flatRows bs).take L)) ::
         headerLine schema (computeWidthsRows schema ((flatRows bs).take L)) ::
         borderLine (computeWidthsRows schema ((flatRows bs).take L)) ::
         (((flatRows bs).take L).map
            (dataLine (computeWidthsRows schema ((flatRows bs).take L))) ++
          (List.replicate 3 (ellipsisLine (computeWidthsRows schema ((flatRows bs).take L))) ++
           [borderLine (computeWidthsRows schema ((flatRows bs).take L))]))) := by
  have hfb_tot : totalRows (bs.filter fun b => 0 < b.numRows) = totalRows bs :=
    totalRows_filter bs
  have hne : (bs.filter fun b => 0 < b.numRows) ≠ [] :=
    totalRows_pos_ne_nil (by omega)
  have hm : MaxRows.Limited L ≠ MaxRows.Limited 0 := by
    intro hcon
    cases hcon
    omega
  rw [print_batches_table_nonempty _ _ _ _ hne hm,
    format_table_truncated _ _ _ (by omega) (all_fmtOk_filter hfmt), flatRows_filter]

/-- C2 counterexample: with one column of rows 1 and 2222222 and budget 1,
the borders of the truncated render come from the sliced batch (width 1,
border of length 5), while the borders of the untruncated render have width 7 (length
11); the borders of the truncated output are not those of the untruncated
table. -/
theorem c2_counterexample :
    PrintFormat.print_batches PrintFormat.Table ["a"]
        [⟨[[⟨"1", true⟩], [⟨"2222222", true⟩]], [true]⟩] (MaxRows.Limited 1) true =
      RenderResult.ok
        ["+---+", "| a |", "+---+", "| 1 |", "| . |", "| . |", "| . |", "+---+"] ∧
    PrintFormat.print_batches PrintFormat.Table ["a"]
        [⟨[[⟨"1", true⟩], [⟨"2222222", true⟩]], [true]⟩] MaxRows.Unlimited true =
      RenderResult.ok
        ["+---------+", "| a       |", "+---------+", "| 1       |", "| 2222222 |",
         "+---------+"] ∧
    ("+---+" : String) ≠ "+---------+" := by
  refine ⟨by decide, by decide, by decide⟩

/-- C2 witness: the amended statement applied to a concrete over-budget
render. -/
theorem c2_witness :
    ((1 ≤ 1 ∧ 1 < totalRows [⟨[[⟨"1", true⟩], [⟨"2", true⟩]], [true]⟩] ∧
        ([⟨[[⟨"1", true⟩], [⟨"2", true⟩]], [true]⟩] : List RecordBatch).all batchFmtOk = true) ∧
      PrintFormat.print_batches PrintFormat.Table ["a"]
          [⟨[[⟨"1", true⟩], [⟨"2", true⟩]], [true]⟩] (MaxRows.Limited 1) true =
        RenderResult.ok
          (borderLine (computeWidthsRows ["a"]
              ((flatRows [⟨[[⟨"1", true⟩], [⟨"2", true⟩]], [true]⟩]).take 1)) ::
           headerLine ["a"] (computeWidthsRows ["a"]
              ((flatRows [⟨[[⟨"1", true⟩], [⟨"2", true⟩]], [true]⟩]).take 1)) ::
           borderLine (computeWidthsRows ["a"]
              ((flatRows [⟨[[⟨"1", true⟩], [⟨"2", true⟩]], [true]⟩]).take 1)) ::
           (((flatRows [⟨[[⟨"1", true⟩], [⟨"2", true⟩]], [true]⟩]).take 1).map
              (dataLine (computeWidthsRows ["a"]
                ((flatRows [⟨[[⟨"1", true⟩], [⟨"2", true⟩]], [true]⟩]).take 1))) ++
            (List.replicate 3 (ellipsisLine (computeWidthsRows ["a"]
                ((flatRows [⟨[[⟨"1", true⟩], [⟨"2", true⟩]], [true]⟩]).take 1))) ++
             [borderLine (computeWidthsRows ["a"]
                ((flatRows [⟨[[⟨"1", true⟩], [⟨"2", true⟩]], [true]⟩]).take 1))])))) := by
  exact ⟨⟨by decide, by decide, by decide⟩,
    c2_truncation_structure ["a"] [⟨[[⟨"1", true⟩], [⟨"2", true⟩]], [true]⟩] 1 true
      (by decide) (by decide) (by decide)⟩

/-- C1 (amended): each of the three ellipsis rows of a truncated
bordered-table render is one single line made of a pipe, a space and one dot,
then bottom-border-length minus four spaces, then a pipe — a single dot in
the first cell position padded across the whole row, not one dot per column
cell; the three rows sit directly before the restored bottom border. -/
theorem c1_ellipsis_rows_single_dot (schema : List String) (bs : List RecordBatch)
    (L : Nat) (hdr : Bool) (hL : 1 ≤ L) (hover : L < totalRows bs)
    (hfmt : bs.all batchFmtOk = true) :
    ∃ pre,
      PrintFormat.print_batches PrintFormat.Table schema bs (MaxRows.Limited L) hdr =
        RenderResult.ok (pre ++
          (List.replicate 3 (ellipsisLine (computeWidthsRows schema ((flatRows bs).take L))) ++
           [borderLine (computeWidthsRows schema ((flatRows bs).take L))])) ∧
      pre.length = L + 3 ∧
      ellipsisLine (computeWidthsRows schema ((flatRows bs).take L)) =
        "| ." ++ padCell ""
          ((borderLine (computeWidthsRows schema ((flatRows bs).take L))).length - 4) ++ "|" := by
  have hfb_tot : totalRows (bs.filter fun b => 0 < b.numRows) = totalRows bs :=
    totalRows_filter bs
  have hne : (bs.filter fun b => 0 < b.numRows) ≠ [] :=
    totalRows_pos_ne_nil (by omega)
  have hm : MaxRows.Limited L ≠ MaxRows.Limited 0 := by
    intro hcon
    cases hcon
    omega
  refine ⟨borderLine (computeWidthsRows schema ((flatRows bs).take L)) ::
    headerLine schema (computeWidthsRows schema ((flatRows bs).take L)) ::
    borderLine (computeWidthsRows schema ((flatRows bs).take L)) ::
    ((flatRows bs).take L).map
      (dataLine (computeWidthsRows schema ((flatRows bs).take L))), ?_, ?_, rfl⟩
  · rw [print_batches_table_nonempty _ _ _ _ hne hm,
      format_table_truncated _ _ _ (by omega) (all_fmtOk_filter hfmt), flatRows_filter]
    simp
  · simp only [List.length_cons, List.length_map, List.length_take, flatRows_length]
    omega

/-- C1 counterexample: a two-column truncated render; the ellipsis rows are
the single-dot line with the rest blank, not the per-column dotted line an
ordinary data row of dots (print_dotted_line) would give. -/
theorem c1_counterexample :
    PrintFormat.print_batches PrintFormat.Table ["a", "b"]
        [⟨[[⟨"1", true⟩, ⟨"4", true⟩], [⟨"2", true⟩, ⟨"5", true⟩]], [true, true]⟩]
        (MaxRows.Limited 1) true =
      RenderResult.ok
        ["+---+---+", "| a | b |", "+---+---+", "| 1 | 4 |", "| .     |", "| .     |",
         "| .     |", "+---+---+"] ∧
    print_dotted_line [1, 1] = ["| . | . |"] ∧
    ("| .     |" : String) ≠ "| . | . |" := by
  refine ⟨by decide, by decide, by decide⟩

/-- C1 witness: the amended statement applied to a concrete two-column
over-budget render. -/
theorem c1_witness :
    ((1 ≤ 1 ∧
        1 < totalRows
          [⟨[[⟨"1", true⟩, ⟨"4", true⟩], [⟨"2", true⟩, ⟨"5", true⟩]], [true, true]⟩] ∧
        ([⟨[[⟨"1", true⟩, ⟨"4", true⟩], [⟨"2", true⟩, ⟨"5", true⟩]], [true, true]⟩] :
            List RecordBatch).all batchFmtOk = true) ∧
      ∃ pre,
        PrintFormat.print_batches PrintFormat.Table ["a", "b"]
            [⟨[[⟨"1", true⟩, ⟨"4", true⟩], [⟨"2", true⟩, ⟨"5", true⟩]], [true, true]⟩]
            (MaxRows.Limited 1) true =
          RenderResult.ok (pre ++
            (List.replicate 3 (ellipsisLine (computeWidthsRows ["a", "b"]
                ((flatRows
                  [⟨[[⟨"1", true⟩, ⟨"4", true⟩], [⟨"2", true⟩, ⟨"5", true⟩]],
                    [true, true]⟩]).take 1))) ++
             [borderLine (computeWidthsRows ["a", "b"]
                ((flatRows
                  [⟨[[⟨"1", true⟩, ⟨"4", true⟩], [⟨"2", true⟩, ⟨"5", true⟩]],
                    [true, true]⟩]).take 1))])) ∧
        pre.length = 1 + 3 ∧
        ellipsisLine (computeWidthsRows ["a", "b"]
            ((flatRows
              [⟨[[⟨"1", true⟩, ⟨"4", true⟩], [⟨"2", true⟩, ⟨"5", true⟩]],
                [true, true]⟩]).take 1)) =
          "| ." ++ padCell ""
            ((borderLine (computeWidthsRows ["a", "b"]
                ((flatRows
                  [⟨[[⟨"1", true⟩, ⟨"4", true⟩], [⟨"2", true⟩, ⟨"5", true⟩]],
                    [true, true]⟩]).take 1))).length - 4) ++ "|") := by
  exact ⟨⟨by decide, by decide, by decide⟩,
    c1_ellipsis_rows_single_dot ["a", "b"]
      [⟨[[⟨"1", true⟩, ⟨"4", true⟩], [⟨"2", true⟩, ⟨"5", true⟩]], [true, true]⟩] 1 true
      (by decide) (by decide) (by decide)⟩

/-- C3: with finite budget at least one and more input rows than the budget,
the table handed to keep_only_maxrows has at least budget-plus-four lines
(top border, header, header border, budget data lines, final border), so the
internal assertion never fails: the render never panics. -/
theorem c3_assertion_safe (schema : List String) (bs : List RecordBatch) (L : Nat)
    (hdr : Bool) (hL : 1 ≤ L) (hover : L < totalRows bs) :
    (∀ lines,
        pretty_format schema (sliceLoop L 0 (bs.filter fun b => 0 < b.numRows)).1 =
          Except.ok lines →
        L + 4 ≤ lines.length) ∧
    PrintFormat.print_batches PrintFormat.Table schema bs (MaxRows.Limited L) hdr ≠
      RenderResult.panicked := by
  have hfb_tot : totalRows (bs.filter fun b => 0 < b.numRows) = totalRows bs :=
    totalRows_filter bs
  have hne : (bs.filter fun b => 0 < b.numRows) ≠ [] :=
    totalRows_pos_ne_nil (by omega)
  have hm : MaxRows.Limited L ≠ MaxRows.Limited 0 := by
    intro hcon
    cases hcon
    omega
  constructor
  · intro lines hl
    have hlen := pretty_lines_length _ _ _ hl
    obtain ⟨hov, htot, hflat⟩ :=
      sliceLoop_over L 0 (bs.filter fun b => 0 < b.numRows) (Nat.zero_le L) (by omega)
    rw [Nat.sub_zero] at htot
    omega
  · rw [print_batches_table_nonempty _ _ _ _ hne hm]
    exact format_table_no_panic _ _ _ (by omega)

/-- C3 witness: the statement applied to a concrete over-budget render. -/
theorem c3_witness :
    ((1 ≤ 1 ∧ 1 < totalRows [⟨[[⟨"1", true⟩], [⟨"2", true⟩]], [true]⟩]) ∧
      ((∀ lines,
          pretty_format ["a"]
              (sliceLoop 1 0
                (([⟨[[⟨"1", true⟩], [⟨"2", true⟩]], [true]⟩] : List RecordBatch).filter
                  fun b => 0 < b.numRows)).1 =
            Except.ok lines →
          1 + 4 ≤ lines.length) ∧
        PrintFormat.print_batches PrintFormat.Table ["a"]
            [⟨[[⟨"1", true⟩], [⟨"2", true⟩]], [true]⟩] (MaxRows.Limited 1) true ≠
          RenderResult.panicked)) := by
  exact ⟨⟨by decide, by decide⟩,
    c3_assertion_safe ["a"] [⟨[[⟨"1", true⟩], [⟨"2", true⟩]], [true]⟩] 1 true
      (by decide) (by decide)⟩

/-- C7: when the total row count is at least one and at most the finite
budget, the bordered-table render is identical to the unlimited-budget
render: nothing is sliced, no ellipsis rows appear. -/
theorem c7_budget_ge_total (schema : List String) (bs : List RecordBatch) (L : Nat)
    (hdr : Bool) (h1 : 1 ≤ totalRows bs) (h2 : totalRows bs ≤ L) :
    PrintFormat.print_batches PrintFormat.Table schema bs (MaxRows.Limited L) hdr =
      PrintFormat.print_batches PrintFormat.Table schema bs MaxRows.Unlimited hdr := by
  have hfb_tot : totalRows (bs.filter fun b => 0 < b.numRows) = totalRows bs :=
    totalRows_filter bs
  have hne : (bs.filter fun b => 0 < b.numRows) ≠ [] :=
    totalRows_pos_ne_nil (by omega)
  have hm1 : MaxRows.Limited L ≠ MaxRows.Limited 0 := by
    intro hcon
    cases hcon
    omega
  have hm2 : MaxRows.Unlimited ≠ MaxRows.Limited 0 := by
    intro hcon
    cases hcon
  rw [print_batches_table_nonempty _ _ _ _ hne hm1,
    print_batches_table_nonempty _ _ _ _ hne hm2]
  have hsl := sliceLoop_under L 0 (bs.filter fun b => 0 < b.numRows) (by omega)
  simp only [format_batches_with_maxrows, hsl]
  cases hp : pretty_format schema (bs.filter fun b => 0 < b.numRows) <;> simp [hp]

/-- C7 witness: a concrete render where the just-sufficient finite budget
equals the total row count. -/
theorem c7_witness :
    ((1 ≤ totalRows [⟨[[⟨"1", true⟩], [⟨"2", true⟩]], [true]⟩] ∧
        totalRows [⟨[[⟨"1", true⟩], [⟨"2", true⟩]], [true]⟩] ≤ 2) ∧
      PrintFormat.print_batches PrintFormat.Table ["a"]
          [⟨[[⟨"1", true⟩], [⟨"2", true⟩]], [true]⟩] (MaxRows.Limited 2) true =
        PrintFormat.print_batches PrintFormat.Table ["a"]
          [⟨[[⟨"1", true⟩], [⟨"2", true⟩]], [true]⟩] MaxRows.Unlimited true) := by
  exact ⟨⟨by decide, by decide⟩,
    c7_budget_ge_total ["a"] [⟨[[⟨"1", true⟩], [⟨"2", true⟩]], [true]⟩] 2 true
      (by decide) (by decide)⟩

/-- C9: for a non-empty zero-row-filtered batch set, the Table format with a
row budget of exactly zero writes nothing and returns success. -/
theorem c9_zero_budget (schema : List String) (bs : List RecordBatch) (hdr : Bool)
    (h : (bs.filter fun b => 0 < b.numRows) ≠ []) :
    PrintFormat.print_batches PrintFormat.Table schema bs (MaxRows.Limited 0) hdr =
      RenderResult.ok [] := by
  simp only [PrintFormat.print_batches, isEmpty_eq_false_of_ne_nil h]
  simp

/-- C9 witness: a concrete non-empty render under budget zero. -/
theorem c9_witness :
    ((([⟨[[⟨"1", true⟩]], [true]⟩] : List RecordBatch).filter fun b => 0 < b.numRows) ≠ [] ∧
      PrintFormat.print_batches PrintFormat.Table ["a"] [⟨[[⟨"1", true⟩]], [true]⟩]
          (MaxRows.Limited 0) true =
        RenderResult.ok []) := by
  exact ⟨by decide,
    c9_zero_budget ["a"] [⟨[[⟨"1", true⟩]], [true]⟩] true (by decide)⟩

/-- C8: zero-row batches are dropped before dispatch (the render only
depends on the filtered batch set); when nothing remains, Table format with
a non-empty schema emits the schema-derived empty table (borders and header
line, no data rows and no ellipsis rows) and every other case emits
nothing. -/
theorem c8_empty_dispatch (fmt : PrintFormat) (schema : List String)
    (bs : List RecordBatch) (m : MaxRows) (hdr : Bool) :
    PrintFormat.print_batches fmt schema bs m hdr =
      PrintFormat.print_batches fmt schema (bs.filter fun b => 0 < b.numRows) m hdr ∧
    ((bs.filter fun b => 0 < b.numRows) = [] →
      (fmt = PrintFormat.Table → schema ≠ [] →
        PrintFormat.print_batches fmt schema bs m hdr =
          RenderResult.ok
            [borderLine (schema.map String.length),
             headerLine schema (schema.map String.length),
             borderLine (schema.map String.length),
             borderLine (schema.map String.length)]) ∧
      ((fmt ≠ PrintFormat.Table ∨ schema = []) →
        PrintFormat.print_batches fmt schema bs m hdr = RenderResult.ok [])) := by
  constructor
  · simp only [PrintFormat.print_batches, filter_idem_bool]
  · intro hfe
    constructor
    · rintro rfl hs
      simp only [PrintFormat.print_batches, hfe, List.isEmpty_nil, if_true]
      have hsf : schema.isEmpty = false := isEmpty_eq_false_of_ne_nil hs
      have hfmtok : (([RecordBatch.newEmpty schema] : List RecordBatch)).all batchFmtOk = true := by
        simp [batchFmtOk, RecordBatch.newEmpty, List.all_map]
      simp only [PrintFormat.print_empty, hsf, Bool.false_eq_true, if_false,
        pretty_format, hfmtok, if_true]
      simp [flatRows, RecordBatch.newEmpty, computeWidthsRows]
    · intro hor
      have hpe : PrintFormat.print_batches fmt schema bs m hdr =
          PrintFormat.print_empty fmt schema := by
        simp only [PrintFormat.print_batches, hfe, List.isEmpty_nil, if_true]
      rw [hpe]
      rcases hor with hf | hs
      · cases fmt <;> first | rfl | exact absurd rfl hf
      · subst hs
        cases fmt <;> rfl

/-- C8 witness: the empty-input Table case with a one-field schema. -/
theorem c8_witness :
    ((([] : List RecordBatch).filter fun b => 0 < b.numRows) = [] ∧
        (["a"] : List String) ≠ [] ∧
      PrintFormat.print_batches PrintFormat.Table ["a"] [] MaxRows.Unlimited true =
        RenderResult.ok
          [borderLine ((["a"] : List String).map String.length),
           headerLine ["a"] ((["a"] : List String).map String.length),
           borderLine ((["a"] : List String).map String.length),
           borderLine ((["a"] : List String).map String.length)]) := by
  exact ⟨by decide, by decide,
    ((c8_empty_dispatch PrintFormat.Table ["a"] [] MaxRows.Unlimited true).2
      (by decide)).1 rfl (by decide)⟩

/-- C6 (amended): for a non-empty zero-row-filtered batch set, header
presence is governed solely by the flag for the separated-value formats
(csv, tsv, automatic): the flag-set output is exactly the schema header line
prepended to the flag-clear output; the Table, Json and NdJson outputs are
byte-identical for both values of the flag (the Table branch never reads
it). -/
theorem c6_header_flag (schema : List String) (bs : List RecordBatch) (m : MaxRows)
    (h : (bs.filter fun b => 0 < b.numRows) ≠ []) :
    (∃ rest, PrintFormat.print_batches PrintFormat.Csv schema bs m false =
        RenderResult.ok rest ∧
      PrintFormat.print_batches PrintFormat.Csv schema bs m true =
        RenderResult.ok (String.intercalate "," schema :: rest)) ∧
    (∃ rest, PrintFormat.print_batches PrintFormat.Tsv schema bs m false =
        RenderResult.ok rest ∧
      PrintFormat.print_batches PrintFormat.Tsv schema bs m true =
        RenderResult.ok (String.intercalate "\t" schema :: rest)) ∧
    (∃ rest, PrintFormat.print_batches PrintFormat.Automatic schema bs m false =
        RenderResult.ok rest ∧
      PrintFormat.print_batches PrintFormat.Automatic schema bs m true =
        RenderResult.ok (String.intercalate "," schema :: rest)) ∧
    PrintFormat.print_batches PrintFormat.Table schema bs m true =
      PrintFormat.print_batches PrintFormat.Table schema bs m false ∧
    PrintFormat.print_batches PrintFormat.Json schema bs m true =
      PrintFormat.print_batches PrintFormat.Json schema bs m false ∧
    PrintFormat.print_batches PrintFormat.NdJson schema bs m true =
      PrintFormat.print_batches PrintFormat.NdJson schema bs m false := by
  have he := isEmpty_eq_false_of_ne_nil h
  refine ⟨⟨(flatRows (bs.filter fun b => 0 < b.numRows)).map
      (fun r => String.intercalate "," (r.map Cell.s)), ?_, ?_⟩,
    ⟨(flatRows (bs.filter fun b => 0 < b.numRows)).map
      (fun r => String.intercalate "\t" (r.map Cell.s)), ?_, ?_⟩,
    ⟨(flatRows (bs.filter fun b => 0 < b.numRows)).map
      (fun r => String.intercalate "," (r.map Cell.s)), ?_, ?_⟩, ?_, ?_, ?_⟩ <;>
    simp [PrintFormat.print_batches, he, print_batches_with_sep]

/-- C6 counterexample: with the header flag clear, the Table output still
contains the header line, and the Table output does not depend on the flag
at all, contradicting header presence iff the flag is set. -/
theorem c6_counterexample :
    PrintFormat.print_batches PrintFormat.Table ["a"] [⟨[[⟨"1", true⟩]], [true]⟩]
        MaxRows.Unlimited false =
      RenderResult.ok ["+---+", "| a |", "+---+", "| 1 |", "+---+"] ∧
    PrintFormat.print_batches PrintFormat.Table ["a"] [⟨[[⟨"1", true⟩]], [true]⟩]
        MaxRows.Unlimited false =
      PrintFormat.print_batches PrintFormat.Table ["a"] [⟨[[⟨"1", true⟩]], [true]⟩]
        MaxRows.Unlimited true ∧
    ("| a |" : String) ∈ ["+---+", "| a |", "+---+", "| 1 |", "+---+"] := by
  refine ⟨by decide, by decide, by decide⟩

/-- C6 witness: the amended statement applied to a concrete one-row input. -/
theorem c6_witness :
    (((([⟨[[⟨"1", true⟩]], [true]⟩] : List RecordBatch).filter fun b => 0 < b.numRows) ≠ []) ∧
      ((∃ rest, PrintFormat.print_batches PrintFormat.Csv ["a"] [⟨[[⟨"1", true⟩]], [true]⟩]
            MaxRows.Unlimited false = RenderResult.ok rest ∧
          PrintFormat.print_batches PrintFormat.Csv ["a"] [⟨[[⟨"1", true⟩]], [true]⟩]
            MaxRows.Unlimited true =
            RenderResult.ok (String.intercalate "," ["a"] :: rest)) ∧
        (∃ rest, PrintFormat.print_batches PrintFormat.Tsv ["a"] [⟨[[⟨"1", true⟩]], [true]⟩]
            MaxRows.Unlimited false = RenderResult.ok rest ∧
          PrintFormat.print_batches PrintFormat.Tsv ["a"] [⟨[[⟨"1", true⟩]], [true]⟩]
            MaxRows.Unlimited true =
            RenderResult.ok (String.intercalate "\t" ["a"] :: rest)) ∧
        (∃ rest, PrintFormat.print_batches PrintFormat.Automatic ["a"]
            [⟨[[⟨"1", true⟩]], [true]⟩] MaxRows.Unlimited false = RenderResult.ok rest ∧
          PrintFormat.print_batches PrintFormat.Automatic ["a"]
            [⟨[[⟨"1", true⟩]], [true]⟩] MaxRows.Unlimited true =
            RenderResult.ok (String.intercalate "," ["a"] :: rest)) ∧
        PrintFormat.print_batches PrintFormat.Table ["a"] [⟨[[⟨"1", true⟩]], [true]⟩]
            MaxRows.Unlimited true =
          PrintFormat.print_batches PrintFormat.Table ["a"] [⟨[[⟨"1", true⟩]], [true]⟩]
            MaxRows.Unlimited false ∧
        PrintFormat.print_batches PrintFormat.Json ["a"] [⟨[[⟨"1", true⟩]], [true]⟩]
            MaxRows.Unlimited true =
          PrintFormat.print_batches PrintFormat.Json ["a"] [⟨[[⟨"1", true⟩]], [true]⟩]
            MaxRows.Unlimited false ∧
        PrintFormat.print_batches PrintFormat.NdJson ["a"] [⟨[[⟨"1", true⟩]], [true]⟩]
            MaxRows.Unlimited true =
          PrintFormat.print_batches PrintFormat.NdJson ["a"] [⟨[[⟨"1", true⟩]], [true]⟩]
            MaxRows.Unlimited false)) := by
  exact ⟨by decide,
    c6_header_flag ["a"] [⟨[[⟨"1", true⟩]], [true]⟩] MaxRows.Unlimited (by decide)⟩

/-! Facts about the streaming state machine. -/

lemma renderedRows_append (xs ys : List RecordBatch) (ws : List Nat) :
    renderedRows (xs ++ ys) ws = renderedRows xs ws ++ renderedRows ys ws := by
  simp [renderedRows, flatRows_append]

lemma compute_column_widths_go_ok :
    ∀ (bs : List RecordBatch) (ws : List Nat), bs.all batchFmtOk = true →
      compute_column_widths_go ws bs = Except.ok ((flatRows bs).foldl updWidths ws) := by
  intro bs
  induction bs with
  | nil => intro ws _; rfl
  | cons b rest ih =>
    intro ws h
    simp only [List.all_cons, Bool.and_eq_true] at h
    simp only [compute_column_widths_go, h.1, if_true]
    rw [ih _ h.2]
    simp [flatRows, List.foldl_append]

lemma compute_column_widths_go_err :
    ∀ (bs : List RecordBatch) (ws : List Nat), bs.all batchFmtOk = false →
      compute_column_widths_go ws bs = Except.error () := by
  intro bs
  induction bs with
  | nil => intro ws h; simp at h
  | cons b rest ih =>
    intro ws h
    cases hb : batchFmtOk b with
    | false => simp [compute_column_widths_go, hb]
    | true =>
      simp only [List.all_cons, hb, Bool.true_and] at h
      simp [compute_column_widths_go, hb, ih _ h]

lemma compute_column_widths_eq (schema : List String) (bs : List RecordBatch)
    (h : bs.all batchFmtOk = true) :
    compute_column_widths schema bs =
      Except.ok (computeWidthsRows schema (flatRows bs)) := by
  rw [compute_column_widths, compute_column_widths_go_ok bs _ h]
  rfl

lemma flushLoop_ok :
    ∀ (bs : List RecordBatch) (st : OutputStreamState) (ws : List Nat),
      bs.all batchFmtOk = true →
      flushLoop ws st bs =
        ({ st with output := st.output ++ renderedRows bs ws }, Except.ok ()) := by
  intro bs
  induction bs with
  | nil =>
    intro st ws _
    simp [flushLoop, renderedRows, flatRows]
  | cons b rest ih =>
    intro st ws h
    simp only [List.all_cons, Bool.and_eq_true] at h
    simp only [flushLoop, print_batch_with_widths, h.1, if_true]
    rw [ih _ ws h.2]
    simp [renderedRows, flatRows]

lemma flushLoop_err :
    ∀ (bs : List RecordBatch) (st : OutputStreamState) (ws : List Nat),
      bs.all batchFmtOk = false →
      (flushLoop ws st bs).2 = Except.error () := by
  intro bs
  induction bs with
  | nil => intro st ws h; simp at h
  | cons b rest ih =>
    intro st ws h
    cases hb : batchFmtOk b with
    | false => simp [flushLoop, print_batch_with_widths, hb]
    | true =>
      simp only [List.all_cons, hb, Bool.true_and] at h
      simp [flushLoop, print_batch_with_widths, hb, ih _ ws h]

lemma process_batch_committed (st : OutputStreamState) (b : RecordBatch)
    (schema : List String) (ws : List Nat)
    (hw : st.precomputed_widths = some ws) (hh : st.header_printed = true)
    (hb : batchFmtOk b = true) :
    st.process_batch b schema =
      ({ st with output := st.output ++ renderedRows [b] ws }, Except.ok ()) := by
  simp only [OutputStreamState.process_batch, hw, hh, if_true, print_batch_with_widths,
    hb]
  simp [renderedRows, flatRows]

lemma process_batch_committed_err (st : OutputStreamState) (b : RecordBatch)
    (schema : List String) (ws : List Nat)
    (hw : st.precomputed_widths = some ws) (hb : batchFmtOk b = false) :
    (st.process_batch b schema).2 = Except.error () := by
  simp only [OutputStreamState.process_batch, hw]
  cases hh : st.header_printed <;> simp [print_batch_with_widths, hb]

lemma processAll_committed (schema : List String) (ws : List Nat) :
    ∀ (bs : List RecordBatch) (st : OutputStreamState),
      st.precomputed_widths = some ws → st.header_printed = true →
      (processAll schema st bs).2 = Except.ok () →
      processAll schema st bs =
        ({ st with output := st.output ++ renderedRows bs ws }, Except.ok ()) := by
  intro bs
  induction bs with
  | nil =>
    intro st _ _ _
    simp [processAll, renderedRows, flatRows]
  | cons b rest ih =>
    intro st hw hh hok
    cases hb : batchFmtOk b with
    | false =>
      exfalso
      have h2 := process_batch_committed_err st b schema ws hw hb
      rcases hpb : st.process_batch b schema with ⟨st1, r⟩
      rw [hpb] at h2
      simp only at h2
      subst h2
      simp [processAll, hpb] at hok
    | true =>
      have hpb := process_batch_committed st b schema ws hw hh hb
      simp only [processAll, hpb] at hok ⊢
      have hok' : (processAll schema
          { st with output := st.output ++ renderedRows [b] ws } rest).2 =
          Except.ok () := hok
      rw [ih { st with output := st.output ++ renderedRows [b] ws } hw hh hok']
      simp [renderedRows, flatRows, List.append_assoc]

lemma processAll_collecting (schema : List String) :
    ∀ (bs : List RecordBatch) (st : OutputStreamState),
      st.precomputed_widths = none →
      (st.preview_row_count + totalRows bs < st.preview_limit ∨ bs = []) →
      processAll schema st bs =
        ({ st with preview_batches := st.preview_batches ++ bs
                   preview_row_count := st.preview_row_count + totalRows bs },
         Except.ok ()) := by
  intro bs
  induction bs with
  | nil =>
    intro st _ _
    simp [processAll, totalRows]
  | cons b rest ih =>
    intro st hn h
    rcases h with h | h
    swap
    · cases h
    have hni : ¬ (st.preview_limit ≤ st.preview_row_count + b.numRows) := by
      have h1 : totalRows (b :: rest) = b.numRows + totalRows rest := rfl
      omega
    have hpb : st.process_batch b schema =
        ({ st with preview_batches := st.preview_batches ++ [b]
                   preview_row_count := st.preview_row_count + b.numRows },
         Except.ok ()) := by
      simp only [OutputStreamState.process_batch, hn]
      rw [if_neg hni]
    simp only [processAll, hpb]
    rw [ih { st with preview_batches := st.preview_batches ++ [b]
                     preview_row_count := st.preview_row_count + b.numRows }
        hn (Or.inl (by
          simp only [totalRows_cons] at h
          simpa using by omega))]
    simp only [List.append_assoc, List.singleton_append, totalRows_cons]
    rw [Nat.add_assoc]

lemma processAll_append_ok (schema : List String) :
    ∀ (xs ys : List RecordBatch) (st : OutputStreamState),
      (processAll schema st xs).2 = Except.ok () →
      processAll schema st (xs ++ ys) =
        processAll schema ((processAll schema st xs).1) ys := by
  intro xs
  induction xs with
  | nil => intro ys st _; simp [processAll]
  | cons x xs ih =>
    intro ys st h
    rcases hpb : st.process_batch x schema with ⟨st1, r⟩
    cases r with
    | ok u =>
      simp only [List.cons_append, processAll, hpb] at h ⊢
      exact ih ys st1 h
    | error e =>
      simp [processAll, hpb] at h

lemma processAll_append_err (schema : List String) :
    ∀ (xs ys : List RecordBatch) (st : OutputStreamState) (e : Unit),
      (processAll schema st xs).2 = Except.error e →
      processAll schema st (xs ++ ys) = processAll schema st xs := by
  intro xs
  induction xs with
  | nil => intro ys st e h; simp [processAll] at h
  | cons x xs ih =>
    intro ys st e h
    rcases hpb : st.process_batch x schema with ⟨st1, r⟩
    cases r with
    | ok u =>
      simp only [List.cons_append, processAll, hpb] at h ⊢
      exact ih ys st1 e h
    | error e2 =>
      simp [List.cons_append, processAll, hpb]

lemma processAll_prefix_ok (schema : List String) (xs ys : List RecordBatch)
    (st : OutputStreamState)
    (h : (processAll schema st (xs ++ ys)).2 = Except.ok ()) :
    (processAll schema st xs).2 = Except.ok () := by
  cases hr : (processAll schema st xs).2 with
  | ok u => rfl
  | error e =>
    rw [processAll_append_err schema xs ys st e hr] at h
    rw [hr] at h
    cases h

lemma processAll_collecting_new (schema : List String) (bs : List RecordBatch) (L : Nat)
    (h : totalRows bs < L ∨ bs = []) :
    processAll schema (OutputStreamState.new L) bs =
      (⟨bs, totalRows bs, L, none, false, []⟩, Except.ok ()) := by
  have hc := processAll_collecting schema bs (OutputStreamState.new L) rfl
    (by
      rcases h with h | h
      · exact Or.inl (by simp [OutputStreamState.new]; omega)
      · exact Or.inr h)
  rw [hc]
  simp [OutputStreamState.new]

lemma process_batch_commit (schema : List String) (pb : List RecordBatch) (c L : Nat)
    (out : List String) (b : RecordBatch)
    (hreach : L ≤ c + b.numRows)
    (hall : (pb ++ [b]).all batchFmtOk = true) :
    OutputStreamState.process_batch ⟨pb, c, L, none, false, out⟩ b schema =
      (⟨[], c + b.numRows, L, some (computeWidthsRows schema (flatRows (pb ++ [b]))), true,
        (out ++ print_header schema (computeWidthsRows schema (flatRows (pb ++ [b])))) ++
          renderedRows (pb ++ [b]) (computeWidthsRows schema (flatRows (pb ++ [b])))⟩,
       Except.ok ()) := by
  simp only [OutputStreamState.process_batch]
  rw [if_pos hreach, compute_column_widths_eq schema (pb ++ [b]) hall]
  exact flushLoop_ok (pb ++ [b]) _ _ hall

lemma process_batch_commit_err (schema : List String) (pb : List RecordBatch) (c L : Nat)
    (out : List String) (b : RecordBatch)
    (hreach : L ≤ c + b.numRows)
    (hall : (pb ++ [b]).all batchFmtOk = false) :
    (OutputStreamState.process_batch ⟨pb, c, L, none, false, out⟩ b schema).2 =
      Except.error () := by
  simp only [OutputStreamState.process_batch]
  rw [if_pos hreach]
  have hcw : compute_column_widths schema (pb ++ [b]) = Except.error () := by
    rw [compute_column_widths]
    exact compute_column_widths_go_err _ _ hall
  rw [hcw]

lemma processAll_commit_step (schema : List String) (xs : List RecordBatch)
    (b : RecordBatch) (L : Nat)
    (hunder : totalRows xs < L ∨ xs = [])
    (hreach : L ≤ totalRows xs + b.numRows)
    (hok : (processAll schema (OutputStreamState.new L) (xs ++ [b])).2 = Except.ok ()) :
    processAll schema (OutputStreamState.new L) (xs ++ [b]) =
      (⟨[], totalRows (xs ++ [b]), L,
        some (computeWidthsRows schema (flatRows (xs ++ [b]))), true,
        print_header schema (computeWidthsRows schema (flatRows (xs ++ [b]))) ++
          renderedRows (xs ++ [b]) (computeWidthsRows schema (flatRows (xs ++ [b])))⟩,
       Except.ok ()) ∧
    compute_column_widths schema (xs ++ [b]) =
      Except.ok (computeWidthsRows schema (flatRows (xs ++ [b]))) := by
  have hcol := processAll_collecting_new schema xs L hunder
  have hpre_ok : (processAll schema (OutputStreamState.new L) xs).2 = Except.ok () := by
    rw [hcol]
  have happ := processAll_append_ok schema xs [b] (OutputStreamState.new L) hpre_ok
  have hok2 : (processAll schema
      (⟨xs, totalRows xs, L, none, false, []⟩ : OutputStreamState) [b]).2 =
      Except.ok () := by
    rw [happ, hcol] at hok
    exact hok
  rw [happ, hcol]
  show (processAll schema (⟨xs, totalRows xs, L, none, false, []⟩ : OutputStreamState) [b] =
      _) ∧ _
  cases hall : (xs ++ [b]).all batchFmtOk with
  | false =>
    exfalso
    have herr := process_batch_commit_err schema xs (totalRows xs) L [] b hreach hall
    rcases hpb : OutputStreamState.process_batch ⟨xs, totalRows xs, L, none, false, []⟩
        b schema with ⟨st1, r⟩
    rw [hpb] at herr
    simp only at herr
    subst herr
    simp [processAll, hpb] at hok2
  | true =>
    have hpb := process_batch_commit schema xs (totalRows xs) L [] b hreach hall
    refine ⟨?_, compute_column_widths_eq schema (xs ++ [b]) hall⟩
    simp only [processAll, hpb]
    simp [totalRows_append, totalRows]

lemma stream_committed_after (schema : List String) (L : Nat) (bs : List RecordBatch)
    (j k : Nat) (hj1 : 1 ≤ j) (hjk : j ≤ k) (hkle : k ≤ bs.length)
    (hreach : L ≤ totalRows (bs.take j))
    (hmin : ∀ i, i < j → ¬(1 ≤ i ∧ L ≤ totalRows (bs.take i)))
    (hok : (processAll schema (OutputStreamState.new L) (bs.take k)).2 = Except.ok ()) :
    processAll schema (OutputStreamState.new L) (bs.take k) =
      (⟨[], totalRows (bs.take j), L,
        some (computeWidthsRows schema (flatRows (bs.take j))), true,
        print_header schema (computeWidthsRows schema (flatRows (bs.take j))) ++
          renderedRows (bs.take k) (computeWidthsRows schema (flatRows (bs.take j)))⟩,
       Except.ok ()) ∧
    compute_column_widths schema (bs.take j) =
      Except.ok (computeWidthsRows schema (flatRows (bs.take j))) := by
  have hjlen : j - 1 < bs.length := by omega
  have htakej : bs.take j = bs.take (j - 1) ++ [bs[j - 1]] := by
    conv_lhs => rw [show j = (j - 1) + 1 by omega]
    rw [List.take_succ, List.getElem?_eq_getElem hjlen]
    rfl
  have hunder : totalRows (bs.take (j - 1)) < L ∨ bs.take (j - 1) = [] := by
    rcases Nat.lt_or_ge (j - 1) 1 with h0 | h1
    · right
      have hz : j - 1 = 0 := by omega
      rw [hz]
      rfl
    · left
      have hni := hmin (j - 1) (by omega)
      rcases Nat.lt_or_ge (totalRows (bs.take (j - 1))) L with h | h
      · exact h
      · exact absurd ⟨h1, h⟩ hni
  have hreachj : L ≤ totalRows (bs.take (j - 1)) + (bs[j - 1]).numRows := by
    have h2 := hreach
    rw [htakej, totalRows_append] at h2
    simp only [totalRows] at h2
    omega
  have hsplitk : bs.take k = bs.take j ++ (bs.drop j).take (k - j) := by
    conv_lhs => rw [show k = j + (k - j) by omega]
    exact List.take_add bs j (k - j)
  have hok2 := hok
  rw [hsplitk] at hok2
  have hokj : (processAll schema (OutputStreamState.new L) (bs.take j)).2 =
      Except.ok () := processAll_prefix_ok schema _ _ _ hok2
  have hokj2 : (processAll schema (OutputStreamState.new L)
      (bs.take (j - 1) ++ [bs[j - 1]])).2 = Except.ok () := by
    rw [← htakej]
    exact hokj
  obtain ⟨hrunj, hcw⟩ :=
    processAll_commit_step schema (bs.take (j - 1)) (bs[j - 1]) L hunder hreachj hokj2
  rw [← htakej] at hrunj hcw
  have happ := processAll_append_ok schema (bs.take j) ((bs.drop j).take (k - j))
      (OutputStreamState.new L) hokj
  have hseg_ok : (processAll schema
      (⟨[], totalRows (bs.take j), L,
        some (computeWidthsRows schema (flatRows (bs.take j))), true,
        print_header schema (computeWidthsRows schema (flatRows (bs.take j))) ++
          renderedRows (bs.take j) (computeWidthsRows schema (flatRows (bs.take j)))⟩ :
        OutputStreamState) ((bs.drop j).take (k - j))).2 = Except.ok () := by
    rw [happ, hrunj] at hok2
    exact hok2
  have hcommitted := processAll_committed schema
      (computeWidthsRows schema (flatRows (bs.take j)))
      ((bs.drop j).take (k - j))
      (⟨[], totalRows (bs.take j), L,
        some (computeWidthsRows schema (flatRows (bs.take j))), true,
        print_header schema (computeWidthsRows schema (flatRows (bs.take j))) ++
          renderedRows (bs.take j) (computeWidthsRows schema (flatRows (bs.take j)))⟩ :
        OutputStreamState) rfl rfl hseg_ok
  refine ⟨?_, hcw⟩
  rw [hsplitk, happ, hrunj]
  show processAll schema
      (⟨[], totalRows (bs.take j), L,
        some (computeWidthsRows schema (flatRows (bs.take j))), true,
        print_header schema (computeWidthsRows schema (flatRows (bs.take j))) ++
          renderedRows (bs.take j) (computeWidthsRows schema (flatRows (bs.take j)))⟩ :
        OutputStreamState) ((bs.drop j).take (k - j)) = _
  rw [hcommitted]
  rw [renderedRows_append]
  simp [List.append_assoc]

/-- C5: over a whole successful streaming session, column widths are
computed at most once: the state is Committed after a prefix of k calls
exactly when k is positive and the buffered row count over those k batches
has reached the preview limit; the committed widths are the ones
compute_column_widths returns on the minimal committing prefix, at which
call the header block is emitted and every buffered batch flushed; from then
on the widths and the header flag never change and the output at every prefix is
the header block followed by all rows rendered with those same widths. -/
theorem c5_width_commit_once (schema : List String) (L : Nat) (bs : List RecordBatch)
    (k : Nat) (hk : k ≤ bs.length)
    (hok : (processAll schema (OutputStreamState.new L) bs).2 = Except.ok ()) :
    ((processAll schema (OutputStreamState.new L) (bs.take k)).1.precomputed_widths.isSome ↔
      (1 ≤ k ∧ L ≤ totalRows (bs.take k))) ∧
    (∀ w,
      (processAll schema (OutputStreamState.new L) (bs.take k)).1.precomputed_widths =
        some w →
      ∃ j, 1 ≤ j ∧ j ≤ k ∧ L ≤ totalRows (bs.take j) ∧
        (∀ i, i < j → ¬(1 ≤ i ∧ L ≤ totalRows (bs.take i))) ∧
        compute_column_widths schema (bs.take j) = Except.ok w ∧
        (∀ kk, j ≤ kk → kk ≤ bs.length →
          (processAll schema (OutputStreamState.new L) (bs.take kk)).1.precomputed_widths =
            some w ∧
          (processAll schema (OutputStreamState.new L) (bs.take kk)).1.header_printed =
            true ∧
          (processAll schema (OutputStreamState.new L) (bs.take kk)).1.output =
            print_header schema w ++ renderedRows (bs.take kk) w)) := by
  have hpre : ∀ kk, kk ≤ bs.length →
      (processAll schema (OutputStreamState.new L) (bs.take kk)).2 = Except.ok () := by
    intro kk _
    have hsplit : bs = bs.take kk ++ bs.drop kk := (List.take_append_drop kk bs).symm
    have hok2 := hok
    rw [hsplit] at hok2
    exact processAll_prefix_ok schema _ _ _ hok2
  have hforward :
      (processAll schema (OutputStreamState.new L) (bs.take k)).1.precomputed_widths.isSome →
      (1 ≤ k ∧ L ≤ totalRows (bs.take k)) := by
    intro hsome
    by_contra hcon
    rcases Nat.lt_or_ge k 1 with hk0 | hk1
    · have hkz : k = 0 := by omega
      rw [hkz] at hsome
      simp [processAll, OutputStreamState.new] at hsome
    · have hlt : totalRows (bs.take k) < L := by
        rcases Nat.lt_or_ge (totalRows (bs.take k)) L with h | h
        · exact h
        · exact absurd ⟨hk1, h⟩ hcon
      rw [processAll_collecting_new schema (bs.take k) L (Or.inl hlt)] at hsome
      simp at hsome
  refine ⟨⟨hforward, ?_⟩, ?_⟩
  · rintro ⟨hk1, hreach⟩
    have hex : ∃ n, 1 ≤ n ∧ L ≤ totalRows (bs.take n) := ⟨k, hk1, hreach⟩
    obtain ⟨hj1, hjr⟩ := Nat.find_spec hex
    have hjk : Nat.find hex ≤ k := Nat.find_min' hex ⟨hk1, hreach⟩
    have hmin : ∀ i, i < Nat.find hex → ¬(1 ≤ i ∧ L ≤ totalRows (bs.take i)) :=
      fun i hi => Nat.find_min hex hi
    obtain ⟨hrun, _⟩ := stream_committed_after schema L bs (Nat.find hex) k hj1 hjk hk
      hjr hmin (hpre k hk)
    rw [hrun]
    simp
  · intro w hw
    obtain ⟨hk1, hreach⟩ := hforward (by rw [hw]; rfl)
    have hex : ∃ n, 1 ≤ n ∧ L ≤ totalRows (bs.take n) := ⟨k, hk1, hreach⟩
    obtain ⟨hj1, hjr⟩ := Nat.find_spec hex
    have hjk : Nat.find hex ≤ k := Nat.find_min' hex ⟨hk1, hreach⟩
    have hmin : ∀ i, i < Nat.find hex → ¬(1 ≤ i ∧ L ≤ totalRows (bs.take i)) :=
      fun i hi => Nat.find_min hex hi
    obtain ⟨hrunk, hcwj⟩ := stream_committed_after schema L bs (Nat.find hex) k hj1 hjk hk
      hjr hmin (hpre k hk)
    have hwval : w = computeWidthsRows schema (flatRows (bs.take (Nat.find hex))) := by
      rw [hrunk] at hw
      simp only at hw
      exact (Option.some_inj.mp hw).symm
    refine ⟨Nat.find hex, hj1, hjk, hjr, hmin, ?_, ?_⟩
    · rw [hwval]
      exact hcwj
    · intro kk hjkk hkkle
      obtain ⟨hrunkk, _⟩ := stream_committed_after schema L bs (Nat.find hex) kk hj1
        hjkk hkkle hjr hmin (hpre kk hkkle)
      rw [hrunkk, hwval]
      exact ⟨rfl, rfl, rfl⟩

/-- Concrete two-batch input for the streaming witnesses. -/
def twoBatchInput : List RecordBatch :=
  [⟨[[⟨"1", true⟩]], [true]⟩, ⟨[[⟨"2", true⟩]], [true]⟩]

/-- C5 witness: a concrete two-batch session with preview limit one,
committing on the first call. -/
theorem c5_witness :
    ((2 ≤ twoBatchInput.length ∧
        (processAll ["a"] (OutputStreamState.new 1) twoBatchInput).2 = Except.ok ()) ∧
      (((processAll ["a"] (OutputStreamState.new 1)
            (twoBatchInput.take 2)).1.precomputed_widths.isSome ↔
          (1 ≤ 2 ∧ 1 ≤ totalRows (twoBatchInput.take 2))) ∧
        (∀ w,
          (processAll ["a"] (OutputStreamState.new 1)
              (twoBatchInput.take 2)).1.precomputed_widths = some w →
          ∃ j, 1 ≤ j ∧ j ≤ 2 ∧ 1 ≤ totalRows (twoBatchInput.take j) ∧
            (∀ i, i < j → ¬(1 ≤ i ∧ 1 ≤ totalRows (twoBatchInput.take i))) ∧
            compute_column_widths ["a"] (twoBatchInput.take j) = Except.ok w ∧
            (∀ kk, j ≤ kk → kk ≤ twoBatchInput.length →
              (processAll ["a"] (OutputStreamState.new 1)
                  (twoBatchInput.take kk)).1.precomputed_widths = some w ∧
              (processAll ["a"] (OutputStreamState.new 1)
                  (twoBatchInput.take kk)).1.header_printed = true ∧
              (processAll ["a"] (OutputStreamState.new 1)
                  (twoBatchInput.take kk)).1.output =
                print_header ["a"] w ++ renderedRows (twoBatchInput.take kk) w)))) := by
  exact ⟨⟨by decide, rfl⟩,
    c5_width_commit_once ["a"] 1 twoBatchInput 2 (by decide) rfl⟩

/-- C10: while the accumulated buffered row count stays strictly below the
preview limit, a streaming session writes nothing at all: the state only
accumulates the batches and their row count, the widths stay uncommitted and
the header stays unprinted. -/
theorem c10_no_output_below_limit (schema : List String) (L : Nat)
    (bs : List RecordBatch) (h : totalRows bs < L) :
    processAll schema (OutputStreamState.new L) bs =
      ({ preview_batches := bs, preview_row_count := totalRows bs, preview_limit := L,
         precomputed_widths := none, header_printed := false, output := [] },
       Except.ok ()) :=
  processAll_collecting_new schema bs L (Or.inl h)

/-- C10 witness: one single-row batch under a preview limit of two. -/
theorem c10_witness :
    (totalRows [⟨[[⟨"1", true⟩]], [true]⟩] < 2 ∧
      processAll ["a"] (OutputStreamState.new 2) [⟨[[⟨"1", true⟩]], [true]⟩] =
        ({ preview_batches := [⟨[[⟨"1", true⟩]], [true]⟩],
           preview_row_count := totalRows [⟨[[⟨"1", true⟩]], [true]⟩],
           preview_limit := 2, precomputed_widths := none, header_printed := false,
           output := [] },
         Except.ok ())) := by
  exact ⟨by decide,
    c10_no_output_below_limit ["a"] 2 [⟨[[⟨"1", true⟩]], [true]⟩] (by decide)⟩

/-- C4 (amended): formatter construction failures are propagated and abort
the render, also in the streaming path; but a per-value stringification
failure in the streaming path is not propagated: pad_value substitutes the
empty string padded to the column width for the failing cell. -/
theorem c4_error_propagation (schema : List String) (b : RecordBatch) (ws : List Nat)
    (c : Cell) (w : Nat) :
    (batchFmtOk b = false → print_batch_with_widths b ws = Except.error ()) ∧
    (c.tryOk = false → pad_value c w = padCell "" w) ∧
    (∀ st : OutputStreamState, st.precomputed_widths = some ws →
      batchFmtOk b = false →
      (st.process_batch b schema).2 = Except.error ()) := by
  refine ⟨?_, ?_, ?_⟩
  · intro hb
    simp [print_batch_with_widths, hb]
  · intro hc
    simp [pad_value, hc]
  · intro st hw hb
    exact process_batch_committed_err st b schema ws hw hb

/-- C4 counterexample: a batch whose only cell fails try_to_string renders
successfully with the empty string padded to the column width in place of
the failing cell; no error is returned. -/
theorem c4_counterexample :
    print_batch_with_widths ⟨[[⟨"x", false⟩]], [true]⟩ [1] = Except.ok ["|   |"] ∧
    pad_value ⟨"x", false⟩ 1 = " " ∧
    (Except.ok ["|   |"] : Except Unit (List String)) ≠ Except.error () := by
  refine ⟨rfl, by decide, fun hcon => Except.noConfusion hcon⟩

/-- C4 witness: the amended statement applied to a concrete failing batch,
failing cell and committed state. -/
theorem c4_witness :
    ((batchFmtOk ⟨[[⟨"y", true⟩]], [false]⟩ = false ∧
        print_batch_with_widths ⟨[[⟨"y", true⟩]], [false]⟩ [1] = Except.error ()) ∧
      (Cell.tryOk ⟨"x", false⟩ = false ∧ pad_value ⟨"x", false⟩ 1 = padCell "" 1) ∧
      ((⟨[], 0, 0, some [1], true, []⟩ :
          OutputStreamState).precomputed_widths = some [1] ∧
        ((⟨[], 0, 0, some [1], true, []⟩ :
            OutputStreamState).process_batch ⟨[[⟨"y", true⟩]], [false]⟩ ["a"]).2 =
          Except.error ())) := by
  refine ⟨⟨by decide, ?_⟩, ⟨by decide, ?_⟩, ⟨by decide, ?_⟩⟩
  · exact (c4_error_propagation ["a"] ⟨[[⟨"y", true⟩]], [false]⟩ [1] ⟨"x", false⟩ 1).1
      (by decide)
  · exact (c4_error_propagation ["a"] ⟨[[⟨"y", true⟩]], [false]⟩ [1] ⟨"x", false⟩ 1).2.1
      (by decide)
  · exact (c4_error_propagation ["a"] ⟨[[⟨"y", true⟩]], [false]⟩ [1] ⟨"x", false⟩ 1).2.2
      ⟨[], 0, 0, some [1], true, []⟩ (by decide) (by decide)
